import Mathlib

/-!
Shallow embedding of the gestao_financeira repository: the in-memory
transaction store (`server/storage.ts`), the HTTP route logic for create /
delete / restore (`server/routes.ts`), the shared schema
(`shared/schema.ts`), and the client-side import fingerprint / dedup logic
(`client/src/components/import-export.tsx`).

JavaScript machine values are modelled as follows: currency amounts
(JS `number`) as `ℚ`; `Date` objects as a `(year, month, day)` triple with
`month : Fin 12` matching JS `getMonth()`'s 0-based months; `Map` objects as
association lists keyed by the record id, with `set` replacing in place and
`delete` removing the first (unique) match; optional / possibly-`undefined`
fields as `Option`.
-/

namespace GestaoFinanceira

/-- `transactionTypes = ["income", "expense"]` from shared/schema.ts. -/
inductive TxType
| income
| expense
deriving DecidableEq

/-- `paymentMethods` from shared/schema.ts. -/
inductive PaymentMethod
| credit_card
| debit_card
| pix
| cash
deriving DecidableEq

/-- `cardOperators` from shared/schema.ts. -/
inductive CardOperator
| santander
| c6
| porto
| mercado_pago
| nubank
| itau
| bradesco
| caixa
| banco_do_brasil
| inter
| next
| picpay
| other
deriving DecidableEq

/-- `profiles = ["edson", "tais"]` from shared/schema.ts. -/
inductive Profile
| edson
| tais
deriving DecidableEq

/-- Union of `incomeCategories` and `expenseCategories` from shared/schema.ts
(the zod schema validates membership in the union, not agreement with `type`). -/
inductive Category
| salary
| freelance
| investments
| rent
| other_income
| food
| transport
| health
| education
| entertainment
| shopping
| bills
| housing
| reimbursement
| other_expense
deriving DecidableEq

/-- A JS `Date`, reduced to the fields the program reads: `getFullYear()`,
`getMonth()` (0-based) and `getDate()`. -/
structure JSDate where
  year : Int
  month : Fin 12
  day : Nat
deriving DecidableEq

/-- The `Transaction` interface from shared/schema.ts.  Optional TS fields
become `Option`; `createdAt` is always present on stored records. -/
structure Transaction where
  id : String
  type : TxType
  amount : ℚ
  description : String
  paymentMethod : PaymentMethod
  cardOperator : Option CardOperator
  category : Category
  createdAt : JSDate
  installments : Option Nat
  currentInstallment : Option Nat
  parentTransactionId : Option String
  dueDate : Option JSDate
  profile : Profile
deriving DecidableEq

/-- The output of `insertTransactionSchema` (`InsertTransaction`): no `id`,
and the optional fields may be absent.  The `profile` field of the schema is
always overridden by the query-string profile before storage, so it is not
carried here. -/
structure InsertTx where
  type : TxType
  amount : ℚ
  description : String
  paymentMethod : PaymentMethod
  cardOperator : Option CardOperator
  category : Category
  installments : Option Nat
  currentInstallment : Option Nat
  parentTransactionId : Option String
  createdAt : Option JSDate
  dueDate : Option JSDate
deriving DecidableEq

/-- The output of `updateTransactionSchema = insertTransactionSchema.partial()`:
every schema field may independently be present (`some`) or absent (`none`)
in the patch.  JSON cannot carry `undefined`, so a present optional field
always carries a value. -/
structure UpdateTx where
  type? : Option TxType
  amount? : Option ℚ
  description? : Option String
  paymentMethod? : Option PaymentMethod
  cardOperator? : Option CardOperator
  category? : Option Category
  installments? : Option Nat
  currentInstallment? : Option Nat
  parentTransactionId? : Option String
  createdAt? : Option JSDate
  dueDate? : Option JSDate
  profile? : Option Profile
deriving DecidableEq

/-- A raw row of a remote snapshot (`loadTransactionsFromOneDrive` output):
Transaction-shaped JSON.  A missing / empty `id` is modelled as `""` (both
are falsy in the `originalId` check of the restore route). -/
structure RawRow where
  id : String
  type : TxType
  amount : ℚ
  description : String
  paymentMethod : PaymentMethod
  cardOperator : Option CardOperator
  category : Category
  installments : Option Nat
  currentInstallment : Option Nat
  parentTransactionId : Option String
  createdAt : Option JSDate
  dueDate : Option JSDate
deriving DecidableEq

/-- JS truthiness of a `string | undefined` value: `undefined` and `""` are
falsy. -/
def optTruthy : Option String → Bool
| some s => s != ""
| none => false

/-- `x || 1` on a `number | undefined`, as used for the installment fields in
`getTransactionKey`: `undefined` and `0` default to `1`. -/
def jsOrOne : Option Nat → Nat
| some n => if n = 0 then 1 else n
| none => 1

/-- `Math.round`: round half toward positive infinity. -/
def jsRound (q : ℚ) : Int := ⌊q + 1/2⌋

/-- `Math.round(x * 100) / 100`, the 2-decimal rounding used for installment
amounts in the create route. -/
def roundTo2 (q : ℚ) : ℚ := (jsRound (q * 100) : ℚ) / 100

/-- `getFullYear() * 12 + getMonth()`, the month index used by
`isFutureMonth` in `MemStorage.getSummary`. -/
def monthIndex (d : JSDate) : Int := d.year * 12 + (d.month.val : Int)

/-- Gregorian leap-year rule (as implemented by the JS `Date` machinery). -/
def isLeapYear (y : Int) : Bool := (y % 4 == 0 && y % 100 != 0) || y % 400 == 0

/-- Number of days of a (0-based) month of a year. -/
def daysInMonth (y : Int) (m : Fin 12) : Nat :=
  match m.val with
  | 0 => 31
  | 1 => if isLeapYear y then 29 else 28
  | 2 => 31
  | 3 => 30
  | 4 => 31
  | 5 => 30
  | 6 => 31
  | 7 => 31
  | 8 => 30
  | 9 => 31
  | 10 => 30
  | _ => 31

/-- JS `Date.prototype.setMonth m` for `m ≥ 0`, on a date whose day is a real
calendar day (1..31): the year/month are set to `year + m / 12` and `m % 12`,
keeping the day number; a day number exceeding the length of the target month
overflows into the following month (it never overflows further, because the
excess is at most `31 - 28 = 3` days).  This is the roll-over (not clamping)
behaviour of JS dates. -/
def jsSetMonth (d : JSDate) (m : Nat) : JSDate :=
  let y : Int := d.year + Int.ofNat (m / 12)
  let mo : Fin 12 := ⟨m % 12, Nat.mod_lt m (by decide)⟩
  if d.day ≤ daysInMonth y mo then
    { year := y, month := mo, day := d.day }
  else if h : mo.val = 11 then
    { year := y + 1, month := ⟨0, by decide⟩, day := d.day - daysInMonth y mo }
  else
    { year := y, month := ⟨mo.val + 1, by have := mo.isLt; omega⟩,
      day := d.day - daysInMonth y mo }

/-- The store backing `MemStorage.transactions`: the values of the id-keyed
`Map`, in insertion order. -/
abbrev Store := List Transaction

/-- `Map.set(t.id, t)`: replace the entry with that key in place, or append
a new entry. -/
def mapSet (t : Transaction) : Store → Store
| [] => [t]
| u :: rest => if u.id = t.id then t :: rest else u :: mapSet t rest

/-- `Map.delete(id)`: remove the (first) entry with that key. -/
def mapDelete (id : String) : Store → Store
| [] => []
| u :: rest => if u.id = id then rest else u :: mapDelete id rest

/-- `MemStorage.getTransactionById`: `Map.get`, then profile-mismatch is
reported as not-found. -/
def getTransactionById (id : String) (profile : Option Profile) (s : Store) :
    Option Transaction :=
  match s.find? (fun t => decide (t.id = id)) with
  | none => none
  | some t =>
    match profile with
    | some p => if t.profile = p then some t else none
    | none => some t

/-- Build the stored `Transaction` of `MemStorage.createTransaction` /
`createTransactionWithId`: spread the insert data, set `id` and `profile`,
and default `createdAt` to now. -/
def buildTransaction (id : String) (d : InsertTx) (p : Profile) (now : JSDate) :
    Transaction :=
  { id := id
    type := d.type
    amount := d.amount
    description := d.description
    paymentMethod := d.paymentMethod
    cardOperator := d.cardOperator
    category := d.category
    createdAt := d.createdAt.getD now
    installments := d.installments
    currentInstallment := d.currentInstallment
    parentTransactionId := d.parentTransactionId
    dueDate := d.dueDate
    profile := p }

/-- `MemStorage.createTransactionWithId` (also the body of
`createTransaction`, whose id is a fresh UUID supplied by the caller here):
`Map.set` the built record under the given id, never failing. -/
def createTransactionWithId (id : String) (d : InsertTx) (p : Profile)
    (now : JSDate) (s : Store) : Transaction × Store :=
  let t := buildTransaction id d p now
  (t, mapSet t s)

/-- The `{...existing, ...updateData}` spread of `MemStorage.updateTransaction`:
every field present in the patch overwrites the stored field; `id` is not a
schema field and therefore always survives. -/
def applyPatch (ex : Transaction) (u : UpdateTx) : Transaction :=
  { id := ex.id
    type := u.type?.getD ex.type
    amount := u.amount?.getD ex.amount
    description := u.description?.getD ex.description
    paymentMethod := u.paymentMethod?.getD ex.paymentMethod
    cardOperator := match u.cardOperator? with
      | some c => some c
      | none => ex.cardOperator
    category := u.category?.getD ex.category
    createdAt := u.createdAt?.getD ex.createdAt
    installments := match u.installments? with
      | some n => some n
      | none => ex.installments
    currentInstallment := match u.currentInstallment? with
      | some n => some n
      | none => ex.currentInstallment
    parentTransactionId := match u.parentTransactionId? with
      | some q => some q
      | none => ex.parentTransactionId
    dueDate := match u.dueDate? with
      | some d' => some d'
      | none => ex.dueDate
    profile := u.profile?.getD ex.profile }

/-- `MemStorage.updateTransaction`: not-found and profile mismatch return
`none` and leave the store unchanged; otherwise the merged record replaces
the stored one. -/
def updateTransaction (id : String) (u : UpdateTx) (profile : Option Profile)
    (s : Store) : Option Transaction × Store :=
  match s.find? (fun t => decide (t.id = id)) with
  | none => (none, s)
  | some ex =>
    match profile with
    | some p =>
      if ex.profile = p then
        let r := applyPatch ex u
        (some r, mapSet r s)
      else (none, s)
    | none =>
      let r := applyPatch ex u
      (some r, mapSet r s)

/-- `MemStorage.deleteTransaction`: profile mismatch returns `false` without
deleting; otherwise `Map.delete` and its boolean result. -/
def deleteTransaction (id : String) (profile : Option Profile) (s : Store) :
    Bool × Store :=
  match s.find? (fun t => decide (t.id = id)) with
  | some t =>
    match profile with
    | some p =>
      if t.profile = p then (true, mapDelete id s) else (false, s)
    | none => (true, mapDelete id s)
  | none => (false, mapDelete id s)

/-- `MemStorage.deleteTransactionsByParentId`: walk the entries, deleting
every record whose `parentTransactionId` equals the given parent id and whose
profile matches (when a profile is supplied); return the deleted count. -/
def deleteTransactionsByParentId (parentId : String) (profile : Option Profile) :
    Store → Nat × Store
| [] => (0, [])
| t :: rest =>
  let r := deleteTransactionsByParentId parentId profile rest
  if t.parentTransactionId = some parentId then
    match profile with
    | some p => if t.profile = p then (r.1 + 1, r.2) else (r.1, t :: r.2)
    | none => (r.1 + 1, r.2)
  else (r.1, t :: r.2)

/-- `MemStorage.clearAllTransactions`: delete every record of the profile. -/
def clearAllTransactions (p : Profile) (s : Store) : Store :=
  s.filter (fun t => decide (t.profile ≠ p))

/-- `getTransactionDate` inside `MemStorage.getSummary`
(`t.dueDate || t.createdAt`). -/
def effectiveDate (t : Transaction) : JSDate := t.dueDate.getD t.createdAt

/-- `isCurrentMonth` inside `MemStorage.getSummary`: same `getMonth()` and
same `getFullYear()` as now. -/
def isCurrentMonth (now : JSDate) (t : Transaction) : Prop :=
  (effectiveDate t).month = now.month ∧ (effectiveDate t).year = now.year

instance (now : JSDate) (t : Transaction) : Decidable (isCurrentMonth now t) := by
  unfold isCurrentMonth; infer_instance

/-- `isFutureMonth` inside `MemStorage.getSummary`:
`year * 12 + month` strictly greater than now's. -/
def isFutureMonth (now : JSDate) (t : Transaction) : Prop :=
  monthIndex now < monthIndex (effectiveDate t)

instance (now : JSDate) (t : Transaction) : Decidable (isFutureMonth now t) := by
  unfold isFutureMonth; infer_instance

/-- The summary record returned by `MemStorage.getSummary`. -/
structure Summary where
  totalIncome : ℚ
  totalExpenses : ℚ
  balance : ℚ
  transactionCount : Nat
  futureExpenses : ℚ
deriving DecidableEq

/-- `MemStorage.getSummary`: filter the profile's records, sum the current
month's incomes and expenses and the strictly-future expenses with
`reduce((sum, t) => sum + t.amount, 0)`, and count all of the profile's
records. -/
def getSummary (p : Profile) (now : JSDate) (s : Store) : Summary :=
  let txs := s.filter (fun t => decide (t.profile = p))
  let totalIncome :=
    (txs.filter (fun t => decide (t.type = TxType.income ∧ isCurrentMonth now t))).foldl
      (fun sum t => sum + t.amount) 0
  let totalExpenses :=
    (txs.filter (fun t => decide (t.type = TxType.expense ∧ isCurrentMonth now t))).foldl
      (fun sum t => sum + t.amount) 0
  let futureExpenses :=
    (txs.filter (fun t => decide (t.type = TxType.expense ∧ isFutureMonth now t))).foldl
      (fun sum t => sum + t.amount) 0
  { totalIncome := totalIncome
    totalExpenses := totalExpenses
    balance := totalIncome - totalExpenses
    transactionCount := txs.length
    futureExpenses := futureExpenses }

/-- Claim-side predicate: the record's effective date falls in the current
calendar month, expressed through the month index. -/
def inCurrentCalendarMonth (now : JSDate) (t : Transaction) : Prop :=
  monthIndex (effectiveDate t) = monthIndex now

instance (now : JSDate) (t : Transaction) : Decidable (inCurrentCalendarMonth now t) := by
  unfold inCurrentCalendarMonth; infer_instance

/-- Claim-side summary, written from the words of claim C1: sums are taken as
`(map amount).sum` over the described subsets of the profile's records,
the current month is characterised by month-index equality, future months by
strict month-index inequality, balance is income minus expenses, and the
count is the number of the profile's records regardless of date. -/
def claimSummary (p : Profile) (now : JSDate) (s : Store) : Summary :=
  let mine := s.filter (fun t => decide (t.profile = p))
  { totalIncome :=
      ((mine.filter (fun t =>
        decide (t.type = TxType.income ∧ inCurrentCalendarMonth now t))).map
        (fun t => t.amount)).sum
    totalExpenses :=
      ((mine.filter (fun t =>
        decide (t.type = TxType.expense ∧ inCurrentCalendarMonth now t))).map
        (fun t => t.amount)).sum
    balance :=
      ((mine.filter (fun t =>
        decide (t.type = TxType.income ∧ inCurrentCalendarMonth now t))).map
        (fun t => t.amount)).sum -
      ((mine.filter (fun t =>
        decide (t.type = TxType.expense ∧ inCurrentCalendarMonth now t))).map
        (fun t => t.amount)).sum
    transactionCount := mine.length
    futureExpenses :=
      ((mine.filter (fun t =>
        decide (t.type = TxType.expense ∧ isFutureMonth now t))).map
        (fun t => t.amount)).sum }

lemma foldl_add_amount (l : List Transaction) (a : ℚ) :
    l.foldl (fun sum t => sum + t.amount) a = a + (l.map (fun t => t.amount)).sum := by
  induction l generalizing a with
  | nil => simp
  | cons t rest ih => simp [List.foldl_cons, ih, add_assoc]

lemma isCurrentMonth_iff_index (now : JSDate) (t : Transaction) :
    isCurrentMonth now t ↔ inCurrentCalendarMonth now t := by
  unfold isCurrentMonth inCurrentCalendarMonth monthIndex
  constructor
  · rintro ⟨hm, hy⟩
    rw [hm, hy]
  · intro h
    have hm1 : ((effectiveDate t).month.val : Int) < 12 := by
      exact_mod_cast (effectiveDate t).month.isLt
    have hm2 : (now.month.val : Int) < 12 := by exact_mod_cast now.month.isLt
    have hm0 : (0 : Int) ≤ ((effectiveDate t).month.val : Int) := by positivity
    have hm0' : (0 : Int) ≤ (now.month.val : Int) := by positivity
    have hy : (effectiveDate t).year = now.year := by omega
    have hm : ((effectiveDate t).month.val : Int) = (now.month.val : Int) := by omega
    refine ⟨?_, hy⟩
    exact Fin.ext (by exact_mod_cast hm)

/-- C1: for every profile, `getSummary` returns totalIncome = the sum of the
amounts of the profile's income records whose effective date (dueDate if
present, else createdAt) lies in the current calendar month, totalExpenses
the same over expense records, futureExpenses the sum over expense records
whose effective date's `year*12+month` is strictly greater than the current
one, balance = totalIncome − totalExpenses, and transactionCount the number
of the profile's records regardless of date. -/
theorem getSummary_spec (p : Profile) (now : JSDate) (s : Store) :
    getSummary p now s = claimSummary p now s := by
  unfold getSummary claimSummary
  have hc : ∀ ty : TxType, ∀ l : List Transaction,
      l.filter (fun t => decide (t.type = ty ∧ isCurrentMonth now t)) =
      l.filter (fun t => decide (t.type = ty ∧ inCurrentCalendarMonth now t)) := by
    intro ty l
    apply List.filter_congr
    intro t _
    simp only [decide_eq_decide]
    rw [isCurrentMonth_iff_index]
  simp only [hc, foldl_add_amount, zero_add]

/-- The checks of `insertTransactionSchema` beyond the structural typing of
`InsertTx`: positive amount, non-empty description, `installments` within
1..48 when present, `currentInstallment` at least 1 when present. -/
def insertValid (d : InsertTx) : Bool :=
  decide (0 < d.amount) && (d.description != "") &&
  (match d.installments with
   | some n => decide (1 ≤ n ∧ n ≤ 48)
   | none => true) &&
  (match d.currentInstallment with
   | some n => decide (1 ≤ n)
   | none => true)

/-- The `installmentData` object built in iteration `i` (1-based) of the
create route's loop (routes.ts, POST /api/transactions): the parsed data with
amount, `currentInstallment`, `parentTransactionId`, `createdAt`, `dueDate`
and description overridden.  The due date is the base date with its month set
to `getMonth() + (i - 1)`. -/
def installmentData (data : InsertTx) (parentId : String) (now : JSDate)
    (n : Nat) (baseDate : JSDate) (i : Nat) : InsertTx :=
  { data with
    amount := roundTo2 (data.amount / (n : ℚ))
    currentInstallment := some i
    parentTransactionId := if i = 1 then none else some parentId
    createdAt := some now
    dueDate := some (jsSetMonth baseDate (baseDate.month.val + (i - 1)))
    description :=
      data.description ++ " (" ++ toString i ++ "/" ++ toString n ++ ")" }

/-- Run a sequence of `(id, data)` creations against the store, returning the
created records in order (the route's `transactions` array) and the final
store. -/
def runCreates (p : Profile) (now : JSDate) :
    List (String × InsertTx) → Store → List Transaction × Store
| [], s => ([], s)
| (id, d) :: rest, s =>
  let c := createTransactionWithId id d p now s
  let r := runCreates p now rest c.2
  (c.1 :: r.1, r.2)

/-- POST /api/transactions (routes.ts): when `paymentMethod = credit_card`
and `installments` is truthy and greater than 1, expand into `installments`
records — the first created under the pre-drawn UUID `parentId`, the rest
under the fresh UUIDs `childIds`, children carrying
`parentTransactionId = parentId` — otherwise create a single record with
`installments = 1` and `currentInstallment = 1` (under the one fresh id
`parentId`). -/
def createRoute (data : InsertTx) (p : Profile) (now : JSDate)
    (parentId : String) (childIds : List String) (s : Store) :
    List Transaction × Store :=
  match data.installments, data.paymentMethod with
  | some n, PaymentMethod.credit_card =>
    if 1 < n then
      let baseDate := data.dueDate.getD now
      let jobs := (List.range n).map (fun k =>
        ((if k = 0 then parentId else childIds.getD (k - 1) ""),
         installmentData data parentId now n baseDate (k + 1)))
      runCreates p now jobs s
    else
      let c := createTransactionWithId parentId
        { data with installments := some 1, currentInstallment := some 1 } p now s
      ([c.1], c.2)
  | _, _ =>
    let c := createTransactionWithId parentId
      { data with installments := some 1, currentInstallment := some 1 } p now s
    ([c.1], c.2)

lemma mapSet_fresh (t : Transaction) (s : Store) (h : ∀ u ∈ s, u.id ≠ t.id) :
    mapSet t s = s ++ [t] := by
  induction s with
  | nil => rfl
  | cons u rest ih =>
    have hu : u.id ≠ t.id := h u (by simp)
    simp only [mapSet, if_neg hu, List.cons_append]
    rw [ih (fun v hv => h v (by simp [hv]))]

lemma runCreates_eq (p : Profile) (now : JSDate) :
    ∀ (jobs : List (String × InsertTx)) (s : Store),
    (jobs.map Prod.fst).Nodup →
    (∀ j ∈ jobs, ∀ u ∈ s, u.id ≠ j.1) →
    runCreates p now jobs s =
      (jobs.map (fun j => buildTransaction j.1 j.2 p now),
       s ++ jobs.map (fun j => buildTransaction j.1 j.2 p now)) := by
  intro jobs
  induction jobs with
  | nil => intro s _ _; simp [runCreates]
  | cons j rest ih =>
    intro s hnodup hfresh
    obtain ⟨id, d⟩ := j
    have hid : (buildTransaction id d p now).id = id := rfl
    have hfresh1 : ∀ u ∈ s, u.id ≠ (buildTransaction id d p now).id := by
      intro u hu
      rw [hid]
      exact hfresh (id, d) (by simp) u hu
    have hset : mapSet (buildTransaction id d p now) s =
        s ++ [buildTransaction id d p now] := mapSet_fresh _ _ hfresh1
    have hnodup' : (rest.map Prod.fst).Nodup := by
      simp only [List.map_cons, List.nodup_cons] at hnodup
      exact hnodup.2
    have hnotmem : id ∉ rest.map Prod.fst := by
      simp only [List.map_cons, List.nodup_cons] at hnodup
      exact hnodup.1
    have hfresh' : ∀ j' ∈ rest, ∀ u ∈ s ++ [buildTransaction id d p now],
        u.id ≠ j'.1 := by
      intro j' hj' u hu
      rcases List.mem_append.mp hu with hus | hut
      · exact hfresh j' (by simp [hj']) u hus
      · have : u = buildTransaction id d p now := by simpa using hut
        rw [this, hid]
        intro hcontra
        exact hnotmem (hcontra ▸ List.mem_map_of_mem Prod.fst hj')
    simp only [runCreates, createTransactionWithId]
    rw [hset, ih (s ++ [buildTransaction id d p now]) hnodup' hfresh']
    simp [List.append_assoc]

lemma range_map_getD {α : Type} (l : List α) (d : α) :
    (List.range l.length).map (fun k => l.getD k d) = l := by
  induction l with
  | nil => rfl
  | cons a as ih =>
    rw [List.length_cons, List.range_succ_eq_map, List.map_cons, List.map_map]
    have hpt : ∀ k ∈ List.range as.length,
        ((fun k => (a :: as).getD k d) ∘ (· + 1)) k = as.getD k d := by
      intro k _
      simp [Function.comp, List.getD_cons_succ]
    rw [List.map_congr_left hpt, ih]
    simp

/-- C2: for every valid create with `paymentMethod = credit_card` and
`installments = N ≥ 2`, exactly N records are stored (on fresh distinct ids);
the first has no `parentTransactionId`; records 2..N all carry
`parentTransactionId` equal to record 1's id; `currentInstallment` runs 1..N
in order; each amount equals `round(total/N, 2)` (each installment rounded
independently); each description is the original suffixed with `" (i/N)"`;
and the i-th due date is the base date (explicit dueDate if given, else now)
advanced by `i - 1` calendar months (month-set semantics, day overflow
rolling into the following month). -/
theorem createRoute_installments
    (data : InsertTx) (p : Profile) (now : JSDate) (parentId : String)
    (childIds : List String) (s : Store) (n : Nat)
    (hv : insertValid data = true)
    (hpm : data.paymentMethod = PaymentMethod.credit_card)
    (hn : data.installments = some n) (h2 : 2 ≤ n)
    (hlen : childIds.length = n - 1)
    (hnodup : (parentId :: childIds).Nodup)
    (hfresh : ∀ u ∈ s, u.id ∉ parentId :: childIds) :
    (createRoute data p now parentId childIds s).1.length = n ∧
    (createRoute data p now parentId childIds s).2 =
      s ++ (createRoute data p now parentId childIds s).1 ∧
    (createRoute data p now parentId childIds s).1.head?.map (fun t => t.id) =
      some parentId ∧
    (createRoute data p now parentId childIds s).1.map
        (fun t => t.parentTransactionId) =
      none :: List.replicate (n - 1) (some parentId) ∧
    (createRoute data p now parentId childIds s).1.map
        (fun t => t.currentInstallment) =
      (List.range n).map (fun k => some (k + 1)) ∧
    (createRoute data p now parentId childIds s).1.map (fun t => t.amount) =
      List.replicate n (roundTo2 (data.amount / (n : ℚ))) ∧
    (createRoute data p now parentId childIds s).1.map (fun t => t.description) =
      (List.range n).map (fun k =>
        data.description ++ " (" ++ toString (k + 1) ++ "/" ++ toString n ++ ")") ∧
    (createRoute data p now parentId childIds s).1.map (fun t => t.dueDate) =
      (List.range n).map (fun k =>
        some (jsSetMonth (data.dueDate.getD now)
          ((data.dueDate.getD now).month.val + k))) := by
  have h1n : 1 < n := by omega
  set base := data.dueDate.getD now with hbase
  set jobs := (List.range n).map (fun k =>
    ((if k = 0 then parentId else childIds.getD (k - 1) ""),
     installmentData data parentId now n base (k + 1))) with hjobs
  have hids : jobs.map Prod.fst = parentId :: childIds := by
    rw [hjobs, List.map_map]
    obtain ⟨m, rfl⟩ : ∃ m, n = m + 1 := ⟨n - 1, by omega⟩
    rw [List.range_succ_eq_map, List.map_cons, List.map_map]
    simp only [Function.comp]
    congr 1
    have hm : m = childIds.length := by omega
    subst hm
    calc (List.range childIds.length).map
          (fun k => if k + 1 = 0 then parentId else childIds.getD (k + 1 - 1) "")
        = (List.range childIds.length).map (fun k => childIds.getD k "") := by
          apply List.map_congr_left
          intro k _
          simp
      _ = childIds := range_map_getD childIds ""
  have hroute : createRoute data p now parentId childIds s =
      runCreates p now jobs s := by
    unfold createRoute
    rw [hn, hpm]
    simp only [if_pos h1n]
  have hrun := runCreates_eq p now jobs s
    (by rw [hids]; exact hnodup)
    (by
      intro j hj u hu
      have : j.1 ∈ jobs.map Prod.fst := List.mem_map_of_mem Prod.fst hj
      rw [hids] at this
      intro hcontra
      exact hfresh u hu (hcontra ▸ this))
  have hres1 : (createRoute data p now parentId childIds s).1 =
      jobs.map (fun j => buildTransaction j.1 j.2 p now) := by
    rw [hroute, hrun]
  have hres2 : (createRoute data p now parentId childIds s).2 =
      s ++ jobs.map (fun j => buildTransaction j.1 j.2 p now) := by
    rw [hroute, hrun]
  obtain ⟨m, hnm⟩ : ∃ m, n = m + 1 := ⟨n - 1, by omega⟩
  refine ⟨?_, ?_, ?_, ?_, ?_, ?_, ?_, ?_⟩
  · rw [hres1, hjobs]; simp
  · rw [hres1, hres2]
  · rw [hres1, hjobs, hnm]
    rw [List.range_succ_eq_map]
    simp [buildTransaction]
  · rw [hres1, hjobs, List.map_map, List.map_map]
    have hpt : ∀ k ∈ List.range n,
        (((fun t => t.parentTransactionId) ∘
          (fun j => buildTransaction j.1 j.2 p now)) ∘
         (fun k => ((if k = 0 then parentId else childIds.getD (k - 1) ""),
           installmentData data parentId now n base (k + 1)))) k =
        (if k = 0 then none else some parentId) := by
      intro k _
      by_cases hk : k = 0
      · simp [hk, Function.comp, buildTransaction, installmentData]
      · simp [hk, Function.comp, buildTransaction, installmentData]
    rw [List.map_congr_left hpt, hnm, List.range_succ_eq_map, List.map_cons,
      List.map_map]
    have hpt2 : ∀ k ∈ List.range m,
        ((fun k => if k = 0 then (none : Option String) else some parentId) ∘
          (· + 1)) k = some parentId := by
      intro k _
      simp [Function.comp]
    rw [List.map_congr_left hpt2]
    simp [List.map_const']
  · rw [hres1, hjobs, List.map_map, List.map_map]
    apply List.map_congr_left
    intro k _
    simp [Function.comp, buildTransaction, installmentData]
  · rw [hres1, hjobs, List.map_map, List.map_map]
    have hpt : ∀ k ∈ List.range n,
        (((fun t => t.amount) ∘ (fun j => buildTransaction j.1 j.2 p now)) ∘
         (fun k => ((if k = 0 then parentId else childIds.getD (k - 1) ""),
           installmentData data parentId now n base (k + 1)))) k =
        roundTo2 (data.amount / (n : ℚ)) := by
      intro k _
      simp [Function.comp, buildTransaction, installmentData]
    rw [List.map_congr_left hpt]
    simp [List.map_const']
  · rw [hres1, hjobs, List.map_map, List.map_map]
    apply List.map_congr_left
    intro k _
    simp [Function.comp, buildTransaction, installmentData]
  · rw [hres1, hjobs, List.map_map, List.map_map]
    apply List.map_congr_left
    intro k _
    simp [Function.comp, buildTransaction, installmentData]

/-- Concrete create request of claim C3: expense of 120.00 in 3 credit-card
installments, due 2024-01-31. -/
def c3Data : InsertTx :=
  { type := TxType.expense
    amount := 120
    description := "Compra"
    paymentMethod := PaymentMethod.credit_card
    cardOperator := some CardOperator.nubank
    category := Category.shopping
    installments := some 3
    currentInstallment := none
    parentTransactionId := none
    createdAt := none
    dueDate := some { year := 2024, month := 0, day := 31 } }

/-- A fixed "now" for the concrete scenarios. -/
def nowJan15 : JSDate := { year := 2024, month := 0, day := 15 }

/-- Witness for C2 at the concrete input of the 120.00 / 3 scenario. -/
theorem createRoute_installments_witness :
    (createRoute c3Data Profile.edson nowJan15 "parent-1" ["child-2", "child-3"]
      []).1.length = 3 ∧
    (createRoute c3Data Profile.edson nowJan15 "parent-1" ["child-2", "child-3"]
      []).1.map (fun t => t.parentTransactionId) =
      none :: List.replicate 2 (some "parent-1") := by
  have h := createRoute_installments c3Data Profile.edson nowJan15 "parent-1"
    ["child-2", "child-3"] [] 3 (by decide) rfl rfl (by omega) rfl
    (by decide) (by simp)
  exact ⟨h.1, h.2.2.2.1⟩

/-- Counterexample to C3 as stated: the second installment of the
120.00 / 3 / due 2024-01-31 scenario is due 2024-03-02 (JS `setMonth` rolls
the day overflow into the next month), not 2024-02-29 as the claim's
leap-year clamp predicts. -/
theorem c3_counterexample :
    (createRoute c3Data Profile.edson nowJan15 "parent-1" ["child-2", "child-3"]
      []).1.map (fun t => t.dueDate) =
      [some { year := 2024, month := 0, day := 31 },
       some { year := 2024, month := 2, day := 2 },
       some { year := 2024, month := 2, day := 31 }] ∧
    (some { year := 2024, month := 2, day := 2 } : Option JSDate) ≠
      some { year := 2024, month := 1, day := 29 } := by
  constructor
  · decide
  · decide

/-- C3 amended: the scenario produces exactly 3 records with amounts
[40.00, 40.00, 40.00], due dates 2024-01-31, 2024-03-02 (the day overflow of
the shorter month rolls into the next month) and 2024-03-31, and descriptions
suffixed "(1/3)", "(2/3)", "(3/3)". -/
theorem c3_amended :
    (createRoute c3Data Profile.edson nowJan15 "parent-1" ["child-2", "child-3"]
      []).1.length = 3 ∧
    (createRoute c3Data Profile.edson nowJan15 "parent-1" ["child-2", "child-3"]
      []).1.map (fun t => t.amount) = [40, 40, 40] ∧
    (createRoute c3Data Profile.edson nowJan15 "parent-1" ["child-2", "child-3"]
      []).1.map (fun t => t.dueDate) =
      [some { year := 2024, month := 0, day := 31 },
       some { year := 2024, month := 2, day := 2 },
       some { year := 2024, month := 2, day := 31 }] ∧
    (createRoute c3Data Profile.edson nowJan15 "parent-1" ["child-2", "child-3"]
      []).1.map (fun t => t.description) =
      ["Compra (1/3)", "Compra (2/3)", "Compra (3/3)"] := by
  have hval : roundTo2 ((120 : ℚ) / ((3 : ℕ) : ℚ)) = 40 := by
    unfold roundTo2 jsRound
    norm_num
  have hamt : (createRoute c3Data Profile.edson nowJan15 "parent-1"
      ["child-2", "child-3"] []).1.map (fun t => t.amount) =
      [roundTo2 ((120 : ℚ) / ((3 : ℕ) : ℚ)),
       roundTo2 ((120 : ℚ) / ((3 : ℕ) : ℚ)),
       roundTo2 ((120 : ℚ) / ((3 : ℕ) : ℚ))] := rfl
  refine ⟨by decide, ?_, by decide, by decide⟩
  rw [hamt, hval]

/-- JS truthiness of `transaction.installments && transaction.installments > 1`. -/
def installmentsGt1 : Option Nat → Bool
| some n => decide (1 < n)
| none => false

/-- DELETE /api/transactions/:id (routes.ts): look the record up scoped to
the profile (`none` = 404); if it is the first installment of a series
(truthy `installments` greater than 1 and falsy `parentTransactionId`),
cascade-delete every record carrying it as `parentTransactionId`; then delete
the record itself. -/
def apiDeleteTransaction (id : String) (p : Profile) (s : Store) : Option Store :=
  match getTransactionById id (some p) s with
  | none => none
  | some t =>
    let s1 := cond (installmentsGt1 t.installments &&
        !optTruthy t.parentTransactionId)
      (deleteTransactionsByParentId id (some p) s).2 s
    let r := deleteTransaction id (some p) s1
    cond r.1 (some r.2) none

lemma find?_eq_of_nodup (s : Store) (t : Transaction) (id : String)
    (hnodup : (s.map (fun u => u.id)).Nodup) (ht : t ∈ s) (hid : t.id = id) :
    s.find? (fun u => decide (u.id = id)) = some t := by
  induction s with
  | nil => cases ht
  | cons u rest ih =>
    simp only [List.map_cons, List.nodup_cons] at hnodup
    rcases List.mem_cons.mp ht with rfl | hrest
    · simp [List.find?, hid]
    · have hu : u.id ≠ id := by
        intro hcontra
        exact hnodup.1 (hcontra ▸ hid ▸ List.mem_map_of_mem (fun v => v.id) hrest)
      have hdu : decide (u.id = id) = false := by simpa using hu
      simp only [List.find?, hdu]
      exact ih hnodup.2 hrest

lemma deleteByParent_eq_filter (pid : String) (p : Profile) (s : Store) :
    (deleteTransactionsByParentId pid (some p) s).2 =
    s.filter (fun t =>
      !(decide (t.parentTransactionId = some pid) && decide (t.profile = p))) := by
  induction s with
  | nil => rfl
  | cons t rest ih =>
    simp only [deleteTransactionsByParentId, List.filter_cons]
    by_cases h1 : t.parentTransactionId = some pid
    · by_cases h2 : t.profile = p
      · simp [h1, h2, ih]
      · simp [h1, h2, ih]
    · simp [h1, ih]

lemma mapDelete_absent (id : String) (s : Store) (h : ∀ t ∈ s, t.id ≠ id) :
    mapDelete id s = s := by
  induction s with
  | nil => rfl
  | cons u rest ih =>
    have hu : u.id ≠ id := h u (by simp)
    simp only [mapDelete, if_neg hu]
    rw [ih (fun v hv => h v (by simp [hv]))]

lemma mapDelete_eq_filter (id : String) (s : Store)
    (hnodup : (s.map (fun u => u.id)).Nodup) :
    mapDelete id s = s.filter (fun t => decide (¬ t.id = id)) := by
  induction s with
  | nil => rfl
  | cons u rest ih =>
    simp only [List.map_cons, List.nodup_cons] at hnodup
    by_cases hu : u.id = id
    · simp only [mapDelete, if_pos hu, List.filter_cons]
      have : ∀ t ∈ rest, t.id ≠ id := by
        intro t htr hcontra
        exact hnodup.1 (hu ▸ hcontra ▸ List.mem_map_of_mem (fun v => v.id) htr)
      rw [List.filter_eq_self.mpr]
      · simp [hu]
      · intro t htr
        simpa using this t htr
    · simp only [mapDelete, if_neg hu, List.filter_cons]
      have hd : (decide (¬ u.id = id)) = true := by simpa using hu
      simp [hd, ih hnodup.2]

lemma nodup_ids_filter (s : Store) (f : Transaction → Bool)
    (hnodup : (s.map (fun u => u.id)).Nodup) :
    ((s.filter f).map (fun u => u.id)).Nodup := by
  have hsub : List.Sublist (s.filter f) s := List.filter_sublist (p := f) s
  exact List.Nodup.sublist (hsub.map (fun u => u.id)) hnodup

/-- C4: for every stored installment series, deleting the first installment
(the record with `installments > 1` and no `parentTransactionId`) through the
delete route removes, in the same operation, exactly the records of the
series — the first installment itself and every record carrying its id as
`parentTransactionId` — while deleting any non-first installment removes only
that one record and leaves everything else unchanged. -/
theorem apiDelete_series
    (s : Store) (p : Profile) (f : Transaction) (n : Nat)
    (hnodup : (s.map (fun t => t.id)).Nodup)
    (hf : f ∈ s) (hfp : f.profile = p) (hfid : f.id ≠ "")
    (hinst : f.installments = some n) (h2 : 2 ≤ n)
    (hroot : f.parentTransactionId = none)
    (hchildprof : ∀ t ∈ s, t.parentTransactionId = some f.id → t.profile = p) :
    apiDeleteTransaction f.id p s =
      some (s.filter (fun t =>
        decide (¬ (t.id = f.id ∨ t.parentTransactionId = some f.id)))) ∧
    ∀ c ∈ s, c.parentTransactionId = some f.id →
      apiDeleteTransaction c.id p s =
        some (s.filter (fun t => decide (¬ t.id = c.id))) := by
  constructor
  · have hfind : s.find? (fun u => decide (u.id = f.id)) = some f :=
      find?_eq_of_nodup s f f.id hnodup hf rfl
    have hget : getTransactionById f.id (some p) s = some f := by
      unfold getTransactionById
      rw [hfind]
      simp [hfp]
    have hcond : (installmentsGt1 f.installments &&
        !optTruthy f.parentTransactionId) = true := by
      rw [hinst, hroot]
      simp only [installmentsGt1, optTruthy, Bool.not_false, Bool.and_true,
        decide_eq_true_eq]
      omega
    set s1 := (deleteTransactionsByParentId f.id (some p) s).2 with hs1
    have hs1eq' : s1 = s.filter (fun t =>
        decide (¬ t.parentTransactionId = some f.id)) := by
      rw [hs1, deleteByParent_eq_filter f.id p s]
      apply List.filter_congr
      intro t hts
      by_cases hpar : t.parentTransactionId = some f.id
      · have := hchildprof t hts hpar
        simp [hpar, this]
      · simp [hpar]
    have hfs1 : f ∈ s1 := by
      rw [hs1eq']
      apply List.mem_filter.mpr
      refine ⟨hf, ?_⟩
      simp [hroot]
    have hnodup1 : (s1.map (fun t => t.id)).Nodup := by
      rw [hs1eq']
      exact nodup_ids_filter s _ hnodup
    have hfind1 : s1.find? (fun u => decide (u.id = f.id)) = some f :=
      find?_eq_of_nodup s1 f f.id hnodup1 hfs1 rfl
    have hdel : deleteTransaction f.id (some p) s1 = (true, mapDelete f.id s1) := by
      unfold deleteTransaction
      rw [hfind1]
      simp [hfp]
    unfold apiDeleteTransaction
    rw [hget]
    simp only [hcond, Bool.cond_true, ← hs1, hdel]
    congr 1
    rw [mapDelete_eq_filter f.id s1 hnodup1, hs1eq', List.filter_filter]
    apply List.filter_congr
    intro t _
    by_cases h1 : t.id = f.id
    · simp [h1]
    · by_cases hp2 : t.parentTransactionId = some f.id
      · simp [h1, hp2]
      · simp [h1, hp2]
  · intro c hc hcp
    have hcprof : c.profile = p := hchildprof c hc hcp
    have hfind : s.find? (fun u => decide (u.id = c.id)) = some c :=
      find?_eq_of_nodup s c c.id hnodup hc rfl
    have hget : getTransactionById c.id (some p) s = some c := by
      unfold getTransactionById
      rw [hfind]
      simp [hcprof]
    have hcond : (installmentsGt1 c.installments &&
        !optTruthy c.parentTransactionId) = false := by
      rw [hcp]
      simp [optTruthy, hfid]
    have hdel : deleteTransaction c.id (some p) s = (true, mapDelete c.id s) := by
      unfold deleteTransaction
      rw [hfind]
      simp [hcprof]
    unfold apiDeleteTransaction
    rw [hget]
    simp only [hcond, Bool.cond_false, hdel]
    simp only [Bool.cond_true]
    congr 1
    exact mapDelete_eq_filter c.id s hnodup

/-- First installment of the concrete two-record series used to witness C4. -/
def c4First : Transaction :=
  { id := "f1"
    type := TxType.expense
    amount := 50
    description := "Serie"
    paymentMethod := PaymentMethod.credit_card
    cardOperator := some CardOperator.itau
    category := Category.bills
    createdAt := nowJan15
    installments := some 2
    currentInstallment := some 1
    parentTransactionId := none
    dueDate := some nowJan15
    profile := Profile.edson }

/-- Second installment of the concrete series used to witness C4. -/
def c4Child : Transaction :=
  { c4First with
    id := "f2"
    currentInstallment := some 2
    parentTransactionId := some "f1" }

/-- An unrelated single record present alongside the C4 series. -/
def c4Other : Transaction :=
  { c4First with
    id := "g1"
    description := "Avulsa"
    installments := some 1
    parentTransactionId := none }

/-- The concrete store used to witness C4. -/
def c4Store : Store := [c4First, c4Child, c4Other]

/-- Witness for C4 at a concrete two-installment series. -/
theorem apiDelete_series_witness :
    apiDeleteTransaction c4First.id Profile.edson c4Store =
      some (c4Store.filter (fun t =>
        decide (¬ (t.id = c4First.id ∨
          t.parentTransactionId = some c4First.id)))) ∧
    apiDeleteTransaction c4Child.id Profile.edson c4Store =
      some (c4Store.filter (fun t => decide (¬ t.id = c4Child.id))) := by
  have h := apiDelete_series c4Store Profile.edson c4First 2
    (by decide) (by decide) rfl (by decide) rfl (by omega) rfl
    (by decide)
  exact ⟨h.1, h.2 c4Child (by decide) rfl⟩

/-- The checks of `updateTransactionSchema` (the partial insert schema) on
the fields present in a patch. -/
def updateValid (u : UpdateTx) : Bool :=
  (match u.amount? with
   | some a => decide (0 < a)
   | none => true) &&
  (match u.description? with
   | some d => d != ""
   | none => true) &&
  (match u.installments? with
   | some n => decide (1 ≤ n ∧ n ≤ 48)
   | none => true) &&
  (match u.currentInstallment? with
   | some n => decide (1 ≤ n)
   | none => true)

/-- The patch with every field absent. -/
def emptyPatch : UpdateTx :=
  { type? := none
    amount? := none
    description? := none
    paymentMethod? := none
    cardOperator? := none
    category? := none
    installments? := none
    currentInstallment? := none
    parentTransactionId? := none
    createdAt? := none
    dueDate? := none
    profile? := none }

/-- Stored record used in the concrete C5 scenario. -/
def c5Record : Transaction :=
  { id := "u1"
    type := TxType.expense
    amount := 10
    description := "Conta"
    paymentMethod := PaymentMethod.pix
    cardOperator := none
    category := Category.bills
    createdAt := nowJan15
    installments := some 1
    currentInstallment := some 1
    parentTransactionId := none
    dueDate := none
    profile := Profile.edson }

/-- A schema-accepted patch that carries values for the identity /
series-linkage fields. -/
def c5Patch : UpdateTx :=
  { emptyPatch with
    profile? := some Profile.tais
    parentTransactionId? := some "px"
    installments? := some 5
    currentInstallment? := some 4 }

/-- Counterexample to C5 as stated: a patch accepted by the update schema that
carries `profile`, `parentTransactionId`, `installments` and
`currentInstallment` overwrites all four of them — the stored record had
(edson, none, 1, 1) and the updated record has (tais, "px", 5, 4). -/
theorem c5_counterexample :
    updateValid c5Patch = true ∧
    (updateTransaction "u1" c5Patch (some Profile.edson) [c5Record]).1.map
      (fun t => (t.profile, t.parentTransactionId, t.installments,
        t.currentInstallment)) =
      some (Profile.tais, some "px", some 5, some 4) ∧
    (c5Record.profile, c5Record.parentTransactionId, c5Record.installments,
      c5Record.currentInstallment) =
      (Profile.edson, none, some 1, some 1) ∧
    ((Profile.tais, some "px", some 5, some 4) :
        Profile × Option String × Option Nat × Option Nat) ≠
      (Profile.edson, none, some 1, some 1) := by
  refine ⟨by decide, by decide, by decide, by decide⟩

/-- C5 amended: for every stored record and accepted patch, only `id` is
guaranteed unchanged by the update; every other field — including `profile`,
`parentTransactionId`, `installments` and `currentInstallment` — takes the
patch's value when the patch carries one and keeps its stored value
otherwise, and the merged record replaces the stored one. -/
theorem updateTransaction_amended
    (s : Store) (id : String) (u : UpdateTx) (p : Profile) (ex : Transaction)
    (hvalid : updateValid u = true)
    (hfind : s.find? (fun t => decide (t.id = id)) = some ex)
    (hprof : ex.profile = p) :
    ∃ r, (updateTransaction id u (some p) s).1 = some r ∧
      r.id = ex.id ∧
      r.profile = u.profile?.getD ex.profile ∧
      r.parentTransactionId = (match u.parentTransactionId? with
        | some q => some q
        | none => ex.parentTransactionId) ∧
      r.installments = (match u.installments? with
        | some n => some n
        | none => ex.installments) ∧
      r.currentInstallment = (match u.currentInstallment? with
        | some n => some n
        | none => ex.currentInstallment) ∧
      r.type = u.type?.getD ex.type ∧
      r.amount = u.amount?.getD ex.amount ∧
      r.description = u.description?.getD ex.description ∧
      r.paymentMethod = u.paymentMethod?.getD ex.paymentMethod ∧
      r.cardOperator = (match u.cardOperator? with
        | some c => some c
        | none => ex.cardOperator) ∧
      r.category = u.category?.getD ex.category ∧
      r.createdAt = u.createdAt?.getD ex.createdAt ∧
      r.dueDate = (match u.dueDate? with
        | some d' => some d'
        | none => ex.dueDate) ∧
      (updateTransaction id u (some p) s).2 = mapSet r s := by
  refine ⟨applyPatch ex u, ?_, rfl, rfl, rfl, rfl, rfl, rfl, rfl, rfl, rfl,
    rfl, rfl, rfl, rfl, ?_⟩
  · unfold updateTransaction
    rw [hfind]
    simp [hprof]
  · unfold updateTransaction
    rw [hfind]
    simp [hprof]

/-- Witness for the amended C5 at the concrete record and patch. -/
theorem updateTransaction_amended_witness :
    ∃ r, (updateTransaction "u1" c5Patch (some Profile.edson) [c5Record]).1 =
      some r ∧ r.id = c5Record.id ∧ r.profile = Profile.tais := by
  obtain ⟨r, h1, h2, h3, _⟩ := updateTransaction_amended [c5Record] "u1"
    c5Patch Profile.edson c5Record (by decide) (by decide) rfl
  refine ⟨r, h1, h2, ?_⟩
  rw [h3]
  rfl

lemma mapSet_present (t : Transaction) (s : Store)
    (hnodup : (s.map (fun u => u.id)).Nodup)
    (hmem : ∃ old ∈ s, old.id = t.id) :
    mapSet t s = s.map (fun u => if u.id = t.id then t else u) := by
  induction s with
  | nil =>
    obtain ⟨old, hold, _⟩ := hmem
    cases hold
  | cons u rest ih =>
    simp only [List.map_cons, List.nodup_cons] at hnodup
    by_cases hu : u.id = t.id
    · simp only [mapSet, if_pos hu, List.map_cons, if_pos hu]
      congr 1
      have hrest : ∀ v ∈ rest, v.id ≠ t.id := by
        intro v hv hcontra
        exact hnodup.1 (hu ▸ hcontra ▸ List.mem_map_of_mem (fun w => w.id) hv)
      rw [List.map_congr_left (g := fun v => v)]
      · simp
      · intro v hv
        simp [hrest v hv]
    · obtain ⟨old, hold, holdid⟩ := hmem
      have holdrest : old ∈ rest := by
        rcases List.mem_cons.mp hold with rfl | h
        · exact absurd holdid hu
        · exact h
      simp only [mapSet, if_neg hu, List.map_cons, if_neg hu]
      rw [ih hnodup.2 ⟨old, holdrest, holdid⟩]

/-- C10: for a caller-supplied id already present in the store,
`createTransactionWithId` never fails: it returns the freshly-built record
(carrying the requested id and profile) and silently replaces the existing
record under that id — even one belonging to a different profile — leaving
the store's length unchanged. -/
theorem createTransactionWithId_replaces
    (s : Store) (id : String) (d : InsertTx) (p : Profile) (now : JSDate)
    (old : Transaction)
    (hnodup : (s.map (fun t => t.id)).Nodup)
    (hold : old ∈ s) (hid : old.id = id) :
    (createTransactionWithId id d p now s).1 = buildTransaction id d p now ∧
    (buildTransaction id d p now).id = id ∧
    (buildTransaction id d p now).profile = p ∧
    (createTransactionWithId id d p now s).2 =
      s.map (fun t => if t.id = id then buildTransaction id d p now else t) ∧
    (createTransactionWithId id d p now s).2.length = s.length := by
  have hbid : (buildTransaction id d p now).id = id := rfl
  have hset : mapSet (buildTransaction id d p now) s =
      s.map (fun t => if t.id = id then buildTransaction id d p now else t) := by
    rw [mapSet_present (buildTransaction id d p now) s hnodup
      ⟨old, hold, by rw [hid, hbid]⟩]
    apply List.map_congr_left
    intro t _
    rw [hbid]
  refine ⟨rfl, rfl, rfl, hset, ?_⟩
  show (mapSet (buildTransaction id d p now) s).length = s.length
  rw [hset, List.length_map]

/-- The insert data used to witness C10: a different-profile record written
over the id of `c4Other`. -/
def c10Data : InsertTx :=
  { type := TxType.income
    amount := 7
    description := "Sobrescrita"
    paymentMethod := PaymentMethod.cash
    cardOperator := none
    category := Category.salary
    installments := some 1
    currentInstallment := some 1
    parentTransactionId := none
    createdAt := none
    dueDate := none }

/-- Witness for C10: overwriting the id of the edson-profile record `c4Other`
with a tais-profile record succeeds and replaces it in place. -/
theorem createTransactionWithId_replaces_witness :
    (createTransactionWithId "g1" c10Data Profile.tais nowJan15 c4Store).1 =
      buildTransaction "g1" c10Data Profile.tais nowJan15 ∧
    (createTransactionWithId "g1" c10Data Profile.tais nowJan15 c4Store).2 =
      c4Store.map (fun t =>
        if t.id = "g1" then buildTransaction "g1" c10Data Profile.tais nowJan15
        else t) ∧
    (createTransactionWithId "g1" c10Data Profile.tais nowJan15 c4Store).2.length =
      c4Store.length := by
  have h := createTransactionWithId_replaces c4Store "g1" c10Data Profile.tais
    nowJan15 c4Other (by decide) (by decide) rfl
  exact ⟨h.1, h.2.2.2.1, h.2.2.2.2⟩

/-- Convert a snapshot row to the output of
`insertTransactionSchema.safeParse` (zod strips the unknown `id` key). -/
def toInsert (t : RawRow) : InsertTx :=
  { type := t.type
    amount := t.amount
    description := t.description
    paymentMethod := t.paymentMethod
    cardOperator := t.cardOperator
    category := t.category
    installments := t.installments
    currentInstallment := t.currentInstallment
    parentTransactionId := t.parentTransactionId
    createdAt := t.createdAt
    dueDate := t.dueDate }

/-- `insertTransactionSchema.safeParse(t).success` for a snapshot row. -/
def rowValid (t : RawRow) : Bool := insertValid (toInsert t)

/-- JS `Map.get` on the remap table. -/
def idMapGet (m : List (String × String)) (k : String) : Option String :=
  (m.find? (fun e => decide (e.1 = k))).map (fun e => e.2)

/-- JS `Map.set` on the remap table. -/
def idMapSet (k v : String) : List (String × String) → List (String × String)
| [] => [(k, v)]
| e :: rest => if e.1 = k then (k, v) :: rest else e :: idMapSet k v rest

/-- First pass of the restore route (routes.ts, POST /api/onedrive/restore):
insert parent rows that parse and carry a truthy original id, preserving the
id, recording old id → new id in the remap table, and counting. -/
def importParents (p : Profile) (now : JSDate) :
    List RawRow → Store → List (String × String) → Nat →
    Store × List (String × String) × Nat
| [], s, m, cnt => (s, m, cnt)
| t :: rest, s, m, cnt =>
  cond (rowValid t && (t.id != ""))
    (let c := createTransactionWithId t.id (toInsert t) p now s
     importParents p now rest c.2 (idMapSet t.id c.1.id m) (cnt + 1))
    (importParents p now rest s m cnt)

/-- The two parent-rewriting lines of the restore route's child loop:
`newParentId = t.parentTransactionId ? idMap.get(t.parentTransactionId) :
undefined` followed by the `newParentId || t.parentTransactionId` fallback. -/
def remapParent (m : List (String × String)) (o : Option String) :
    Option String :=
  let newParentId := match o with
    | some pid => cond (pid != "") (idMapGet m pid) none
    | none => none
  match newParentId with
  | some np => cond (np != "") (some np) o
  | none => o

/-- Second pass of the restore route: import rows that parse, under fresh ids
drawn from `ids`, rewriting `parentTransactionId` through the remap table
with the JS `newParentId || t.parentTransactionId` fallback. -/
def importChildren (p : Profile) (now : JSDate) (m : List (String × String)) :
    List RawRow → List String → Store → Nat → Store × Nat
| [], _, s, cnt => (s, cnt)
| t :: rest, ids, s, cnt =>
  cond (rowValid t)
    (let c := createTransactionWithId (ids.headD "")
       { toInsert t with
         parentTransactionId := remapParent m t.parentTransactionId } p now s
     importChildren p now m rest ids.tail c.2 (cnt + 1))
    (importChildren p now m rest ids s cnt)

/-- Outcome of the restore route: HTTP 404 or success with the reported
count. -/
inductive RestoreOutcome
| notFound
| ok (count : Nat)
deriving DecidableEq

/-- POST /api/onedrive/restore (routes.ts): `cloud` is the
`loadTransactionsFromOneDrive` result (`none` = remote blob absent).  404
when the snapshot is absent or empty; otherwise clear the profile, import
parents first and then children, and report the imported count. -/
def restoreRoute (cloud : Option (List RawRow)) (p : Profile) (now : JSDate)
    (childIds : List String) (s : Store) : RestoreOutcome × Store :=
  match cloud with
  | none => (RestoreOutcome.notFound, s)
  | some rows =>
    if rows.length = 0 then (RestoreOutcome.notFound, s)
    else
      let s1 := clearAllTransactions p s
      let parents := rows.filter (fun t => !optTruthy t.parentTransactionId)
      let children := rows.filter (fun t => optTruthy t.parentTransactionId)
      let pr := importParents p now parents s1 [] 0
      let cr := importChildren p now pr.2.1 children childIds pr.1 pr.2.2
      (RestoreOutcome.ok cr.2, cr.1)

/-- C7: the restore route fails with NotFound exactly when the remote
snapshot is absent or has zero records, and in that case the profile's
existing records are left untouched (the destructive clear only happens after
the emptiness check passes). -/
theorem restoreRoute_notFound (cloud : Option (List RawRow)) (p : Profile)
    (now : JSDate) (ids : List String) (s : Store) :
    ((restoreRoute cloud p now ids s).1 = RestoreOutcome.notFound ↔
      (cloud = none ∨ cloud = some [])) ∧
    ((cloud = none ∨ cloud = some []) → (restoreRoute cloud p now ids s).2 = s) := by
  cases cloud with
  | none => simp [restoreRoute]
  | some rows =>
    cases rows with
    | nil => simp [restoreRoute]
    | cons a as =>
      constructor
      · simp [restoreRoute]
      · intro h
        rcases h with h | h
        · cases h
        · cases h

/-- Witness for C7: an empty snapshot leaves the concrete store untouched and
reports NotFound. -/
theorem restoreRoute_notFound_witness :
    (restoreRoute (some []) Profile.edson nowJan15 [] c4Store).2 = c4Store ∧
    (restoreRoute (some []) Profile.edson nowJan15 [] c4Store).1 =
      RestoreOutcome.notFound := by
  have h := restoreRoute_notFound (some []) Profile.edson nowJan15 [] c4Store
  exact ⟨h.2 (Or.inr rfl), h.1.mpr (Or.inr rfl)⟩

/-- Count predicted by claim C6 as stated: every schema-valid parent plus
every schema-valid child of the snapshot is inserted and counted. -/
def claimRestoreCount (rows : List RawRow) : Nat :=
  ((rows.filter (fun t => !optTruthy t.parentTransactionId)).filter
    (fun t => rowValid t)).length +
  ((rows.filter (fun t => optTruthy t.parentTransactionId)).filter
    (fun t => rowValid t)).length

/-- A snapshot parent row that passes the insert schema but carries no usable
id (`""`, i.e. absent). -/
def c6BadParent : RawRow :=
  { id := ""
    type := TxType.income
    amount := 5
    description := "Sem id"
    paymentMethod := PaymentMethod.pix
    cardOperator := none
    category := Category.salary
    installments := some 1
    currentInstallment := some 1
    parentTransactionId := none
    createdAt := some nowJan15
    dueDate := none }

/-- Counterexample to C6 as stated: a snapshot consisting of one schema-valid
parent row without an id restores with count 0 — the row is skipped by the
`originalId` truthiness check even though it passes validation — while the
claim predicts count 1. -/
theorem c6_counterexample :
    (restoreRoute (some [c6BadParent]) Profile.edson nowJan15 [] []).1 =
      RestoreOutcome.ok 0 ∧
    claimRestoreCount [c6BadParent] = 1 ∧
    RestoreOutcome.ok 0 ≠ RestoreOutcome.ok 1 := by
  exact ⟨by decide, by decide, by decide⟩

/-- Schema-valid parent rows carrying a usable (nonempty) id — the rows the
restore inserts in its first pass. -/
def validParents (rows : List RawRow) : List RawRow :=
  (rows.filter (fun t => !optTruthy t.parentTransactionId)).filter
    (fun t => rowValid t && (t.id != ""))

/-- Schema-valid child rows — the rows the restore inserts in its second
pass. -/
def validChildren (rows : List RawRow) : List RawRow :=
  (rows.filter (fun t => optTruthy t.parentTransactionId)).filter
    (fun t => rowValid t)

/-- Claim-side stored parent record: the row's fields, the snapshot id
preserved, the requesting profile, `createdAt` defaulted to now. -/
def claimParentRecord (p : Profile) (now : JSDate) (t : RawRow) : Transaction :=
  { id := t.id
    type := t.type
    amount := t.amount
    description := t.description
    paymentMethod := t.paymentMethod
    cardOperator := t.cardOperator
    category := t.category
    createdAt := t.createdAt.getD now
    installments := t.installments
    currentInstallment := t.currentInstallment
    parentTransactionId := t.parentTransactionId
    dueDate := t.dueDate
    profile := p }

/-- Claim-side stored child record: a fresh id, and `parentTransactionId`
rewritten through the remap table with fallback to the original — which,
because inserted parents keep their snapshot ids, is the original value in
every case. -/
def claimChildRecord (p : Profile) (now : JSDate) (newId : String)
    (t : RawRow) : Transaction :=
  { claimParentRecord p now t with id := newId }

/-- Claim-side list of stored child records, consuming one fresh id per
row. -/
def claimChildren (p : Profile) (now : JSDate) :
    List RawRow → List String → List Transaction
| [], _ => []
| t :: rest, ids =>
  claimChildRecord p now (ids.headD "") t :: claimChildren p now rest ids.tail

lemma idMapSet_inv (k v : String) (m : List (String × String))
    (P : String × String → Prop) (hm : ∀ e ∈ m, P e) (hkv : P (k, v)) :
    ∀ e ∈ idMapSet k v m, P e := by
  induction m with
  | nil =>
    intro e he
    simp only [idMapSet, List.mem_singleton] at he
    exact he ▸ hkv
  | cons f rest ih =>
    intro e he
    simp only [idMapSet] at he
    by_cases hf : f.1 = k
    · rw [if_pos hf] at he
      rcases List.mem_cons.mp he with rfl | hr
      · exact hkv
      · exact hm e (by simp [hr])
    · rw [if_neg hf] at he
      rcases List.mem_cons.mp he with rfl | hr
      · exact hm e (by simp)
      · exact ih (fun e' he' => hm e' (by simp [he'])) e hr

lemma remapParent_eq (m : List (String × String))
    (hm : ∀ e ∈ m, e.2 = e.1 ∧ e.1 ≠ "") (o : Option String) :
    remapParent m o = o := by
  cases o with
  | none => rfl
  | some pid =>
    by_cases hpid : pid = ""
    · subst hpid
      rfl
    · have hb : (pid != "") = true := by simpa using hpid
      unfold remapParent
      simp only [hb, Bool.cond_true]
      cases hget : idMapGet m pid with
      | none => rfl
      | some v =>
        have hv : v = pid ∧ pid ≠ "" := by
          unfold idMapGet at hget
          cases hfind : m.find? (fun e => decide (e.1 = pid)) with
          | none => rw [hfind] at hget; cases hget
          | some e =>
            rw [hfind] at hget
            simp only [Option.map_some'] at hget
            have hmem : e ∈ m := List.mem_of_find?_eq_some hfind
            have hkey : e.1 = pid := by
              have := List.find?_some hfind
              simpa using this
            obtain ⟨h1, h2⟩ := hm e hmem
            have hev : e.2 = v := Option.some.inj hget
            exact ⟨by rw [← hev, h1, hkey], hkey ▸ h2⟩
        rw [hv.1]
        exact Bool.cond_self (pid != "") (some pid)

lemma importParents_spec (p : Profile) (now : JSDate) (rows : List RawRow) :
    ∀ (s : Store) (m : List (String × String)) (cnt : Nat),
    ((rows.filter (fun t => rowValid t && (t.id != ""))).map
      (fun t => t.id)).Nodup →
    (∀ t ∈ rows, (rowValid t && (t.id != "")) = true →
      t.id ∉ s.map (fun u => u.id)) →
    (∀ e ∈ m, e.2 = e.1 ∧ e.1 ≠ "") →
    (importParents p now rows s m cnt).1 =
      s ++ (rows.filter (fun t => rowValid t && (t.id != ""))).map
        (claimParentRecord p now) ∧
    (importParents p now rows s m cnt).2.2 =
      cnt + (rows.filter (fun t => rowValid t && (t.id != ""))).length ∧
    (∀ e ∈ (importParents p now rows s m cnt).2.1, e.2 = e.1 ∧ e.1 ≠ "") := by
  induction rows with
  | nil =>
    intro s m cnt _ _ hm
    refine ⟨by simp [importParents], by simp [importParents], ?_⟩
    simpa [importParents] using hm
  | cons t rest ih =>
    intro s m cnt hnodup hfresh hm
    by_cases hg : (rowValid t && (t.id != "")) = true
    · have hidne : t.id ≠ "" := by
        have := (Bool.and_eq_true _ _).mp hg
        simpa using this.2
      have hfc : (t :: rest).filter (fun u => rowValid u && (u.id != "")) =
          t :: rest.filter (fun u => rowValid u && (u.id != "")) := by
        simp [List.filter_cons, hg]
      have hbid : (buildTransaction t.id (toInsert t) p now).id = t.id := rfl
      have hfresh_t : ∀ u ∈ s, u.id ≠ (buildTransaction t.id (toInsert t) p now).id := by
        intro u hu hcontra
        exact hfresh t (by simp) hg
          ((hbid ▸ hcontra) ▸ List.mem_map_of_mem (fun v => v.id) hu)
      have hstep : importParents p now (t :: rest) s m cnt =
          importParents p now rest
            (s ++ [buildTransaction t.id (toInsert t) p now])
            (idMapSet t.id t.id m) (cnt + 1) := by
        simp only [importParents, hg, Bool.cond_true, createTransactionWithId]
        rw [mapSet_fresh _ _ hfresh_t]
        rfl
      rw [hfc] at hnodup
      simp only [List.map_cons, List.nodup_cons] at hnodup
      have hfresh' : ∀ t' ∈ rest, (rowValid t' && (t'.id != "")) = true →
          t'.id ∉ (s ++ [buildTransaction t.id (toInsert t) p now]).map
            (fun u => u.id) := by
        intro t' ht' hg' hcontra
        rw [List.map_append] at hcontra
        rcases List.mem_append.mp hcontra with hs' | hb
        · exact hfresh t' (by simp [ht']) hg' hs'
        · have hid' : t'.id = t.id := by simpa using hb
          have hmemf : t' ∈ rest.filter (fun u => rowValid u && (u.id != "")) :=
            List.mem_filter.mpr ⟨ht', hg'⟩
          exact hnodup.1 (hid' ▸ List.mem_map_of_mem (fun v => v.id) hmemf)
      have hm' : ∀ e ∈ idMapSet t.id t.id m, e.2 = e.1 ∧ e.1 ≠ "" :=
        idMapSet_inv t.id t.id m _ hm ⟨rfl, hidne⟩
      obtain ⟨ih1, ih2, ih3⟩ := ih
        (s ++ [buildTransaction t.id (toInsert t) p now])
        (idMapSet t.id t.id m) (cnt + 1) hnodup.2 hfresh' hm'
      refine ⟨?_, ?_, ?_⟩
      · rw [hstep, ih1, hfc]
        simp [List.append_assoc]
        rfl
      · rw [hstep, ih2, hfc]
        simp only [List.length_cons]
        omega
      · rw [hstep]
        exact ih3
    · have hfc : (t :: rest).filter (fun u => rowValid u && (u.id != "")) =
          rest.filter (fun u => rowValid u && (u.id != "")) := by
        simp only [List.filter_cons]
        rw [if_neg]
        simp [hg]
      have hgb : (rowValid t && (t.id != "")) = false := by
        simpa using hg
      have hstep : importParents p now (t :: rest) s m cnt =
          importParents p now rest s m cnt := by
        simp only [importParents, hgb, Bool.cond_false]
      rw [hfc] at hnodup
      obtain ⟨ih1, ih2, ih3⟩ := ih s m cnt hnodup
        (fun t' ht' hg' => hfresh t' (by simp [ht']) hg') hm
      exact ⟨by rw [hstep, ih1, hfc], by rw [hstep, ih2, hfc], by rw [hstep]; exact ih3⟩

lemma importChildren_spec (p : Profile) (now : JSDate)
    (m : List (String × String)) (hm : ∀ e ∈ m, e.2 = e.1 ∧ e.1 ≠ "")
    (rows : List RawRow) :
    ∀ (ids : List String) (s : Store) (cnt : Nat),
    ids.Nodup →
    (rows.filter (fun t => rowValid t)).length ≤ ids.length →
    (∀ i ∈ ids, i ∉ s.map (fun u => u.id)) →
    (importChildren p now m rows ids s cnt).1 =
      s ++ claimChildren p now (rows.filter (fun t => rowValid t)) ids ∧
    (importChildren p now m rows ids s cnt).2 =
      cnt + (rows.filter (fun t => rowValid t)).length := by
  induction rows with
  | nil =>
    intro ids s cnt _ _ _
    constructor
    · simp [importChildren, claimChildren]
    · simp [importChildren]
  | cons t rest ih =>
    intro ids s cnt hnodup hlen hfresh
    by_cases hg : rowValid t = true
    · have hfc : (t :: rest).filter (fun u => rowValid u) =
          t :: rest.filter (fun u => rowValid u) := by
        simp [List.filter_cons, hg]
      rw [hfc] at hlen
      simp only [List.length_cons] at hlen
      obtain ⟨i, ids', rfl⟩ : ∃ i ids', ids = i :: ids' := by
        cases ids with
        | nil => simp at hlen
        | cons i ids' => exact ⟨i, ids', rfl⟩
      simp only [List.nodup_cons] at hnodup
      have hhd : (i :: ids').headD "" = i := rfl
      have hrec : buildTransaction i
          { toInsert t with
            parentTransactionId := remapParent m t.parentTransactionId } p now =
          claimChildRecord p now i t := by
        rw [remapParent_eq m hm]
        rfl
      have hfresh_i : ∀ u ∈ s, u.id ≠ (buildTransaction i
          { toInsert t with
            parentTransactionId := remapParent m t.parentTransactionId }
          p now).id := by
        intro u hu hcontra
        have hui : u.id = i := hcontra
        exact hfresh i (by simp) (hui ▸ List.mem_map_of_mem (fun v => v.id) hu)
      have hstep : importChildren p now m (t :: rest) (i :: ids') s cnt =
          importChildren p now m rest ids'
            (s ++ [claimChildRecord p now i t]) (cnt + 1) := by
        simp only [importChildren, hg, Bool.cond_true, createTransactionWithId,
          hhd, List.tail_cons]
        rw [mapSet_fresh _ _ hfresh_i, hrec]
      have hfresh' : ∀ j ∈ ids', j ∉ (s ++ [claimChildRecord p now i t]).map
          (fun u => u.id) := by
        intro j hj hcontra
        rw [List.map_append] at hcontra
        rcases List.mem_append.mp hcontra with hs' | hb
        · exact hfresh j (by simp [hj]) hs'
        · have : j = i := by simpa [claimChildRecord, claimParentRecord] using hb
          exact hnodup.1 (this ▸ hj)
      have hlen' : (rest.filter (fun u => rowValid u)).length ≤ ids'.length := by
        simp only [List.length_cons] at hlen
        omega
      obtain ⟨ih1, ih2⟩ := ih ids' (s ++ [claimChildRecord p now i t]) (cnt + 1)
        hnodup.2 hlen' hfresh'
      constructor
      · rw [hstep, ih1, hfc]
        simp only [claimChildren, hhd, List.tail_cons]
        simp [List.append_assoc]
      · rw [hstep, ih2, hfc]
        simp only [List.length_cons]
        omega
    · have hgb : rowValid t = false := by simpa using hg
      have hfc : (t :: rest).filter (fun u => rowValid u) =
          rest.filter (fun u => rowValid u) := by
        simp [List.filter_cons, hgb]
      have hstep : importChildren p now m (t :: rest) ids s cnt =
          importChildren p now m rest ids s cnt := by
        simp only [importChildren, hgb, Bool.cond_false]
      rw [hfc] at hlen
      obtain ⟨ih1, ih2⟩ := ih ids s cnt hnodup hlen hfresh
      exact ⟨by rw [hstep, ih1, hfc], by rw [hstep, ih2, hfc]⟩

/-- C6 amended: for every non-empty snapshot (inserted under globally fresh,
distinct ids), the restore clears the profile, partitions the snapshot by JS
truthiness of `parentTransactionId`, inserts every schema-valid parent that
carries a nonempty id — preserving that id, the remap table recording
old id → new id being the identity on them — then inserts every schema-valid
child with `parentTransactionId` rewritten through the remap table, falling
back to the original value when the parent is not in the table (which, since
parent ids are preserved, always yields the child's original
`parentTransactionId`), and returns the count of inserted parents plus
children; rows that fail schema validation — and parents without a usable
id — are skipped and not counted. -/
theorem restoreRoute_amended
    (rows : List RawRow) (p : Profile) (now : JSDate) (ids : List String)
    (s : Store)
    (hne : rows ≠ [])
    (hpar_nodup : ((validParents rows).map (fun t => t.id)).Nodup)
    (hpar_fresh : ∀ t ∈ validParents rows,
      t.id ∉ (clearAllTransactions p s).map (fun u => u.id))
    (hids_nodup : ids.Nodup)
    (hids_len : (validChildren rows).length ≤ ids.length)
    (hids_fresh : ∀ i ∈ ids,
      i ∉ (clearAllTransactions p s).map (fun u => u.id) ∧
      i ∉ (validParents rows).map (fun t => t.id)) :
    (restoreRoute (some rows) p now ids s).1 =
      RestoreOutcome.ok ((validParents rows).length +
        (validChildren rows).length) ∧
    (restoreRoute (some rows) p now ids s).2 =
      clearAllTransactions p s ++
        (validParents rows).map (claimParentRecord p now) ++
        claimChildren p now (validChildren rows) ids := by
  have hlen0 : rows.length ≠ 0 := by
    intro h
    exact hne (List.length_eq_zero.mp h)
  have hpnodup' : (((rows.filter (fun t => !optTruthy t.parentTransactionId)).filter
      (fun t => rowValid t && (t.id != ""))).map (fun t => t.id)).Nodup :=
    hpar_nodup
  have hpfresh' : ∀ t ∈ rows.filter (fun t => !optTruthy t.parentTransactionId),
      (rowValid t && (t.id != "")) = true →
      t.id ∉ (clearAllTransactions p s).map (fun u => u.id) := by
    intro t ht hg
    exact hpar_fresh t (List.mem_filter.mpr ⟨ht, hg⟩)
  obtain ⟨hp1, hp2, hp3⟩ := importParents_spec p now
    (rows.filter (fun t => !optTruthy t.parentTransactionId))
    (clearAllTransactions p s) [] 0 hpnodup' hpfresh' (by simp)
  have hcfresh : ∀ i ∈ ids,
      i ∉ ((importParents p now
        (rows.filter (fun t => !optTruthy t.parentTransactionId))
        (clearAllTransactions p s) [] 0).1).map (fun u => u.id) := by
    intro i hi hcontra
    rw [hp1, List.map_append] at hcontra
    rcases List.mem_append.mp hcontra with h1 | h2
    · exact (hids_fresh i hi).1 h1
    · rw [List.map_map] at h2
      apply (hids_fresh i hi).2
      have : ((fun u => u.id) ∘ claimParentRecord p now) = fun t => t.id := rfl
      rw [this] at h2
      exact h2
  obtain ⟨hc1, hc2⟩ := importChildren_spec p now _ hp3
    (rows.filter (fun t => optTruthy t.parentTransactionId)) ids
    ((importParents p now
      (rows.filter (fun t => !optTruthy t.parentTransactionId))
      (clearAllTransactions p s) [] 0).1)
    ((importParents p now
      (rows.filter (fun t => !optTruthy t.parentTransactionId))
      (clearAllTransactions p s) [] 0).2.2)
    hids_nodup hids_len hcfresh
  have hred : restoreRoute (some rows) p now ids s =
      (RestoreOutcome.ok
        ((importChildren p now
            ((importParents p now
              (rows.filter (fun t => !optTruthy t.parentTransactionId))
              (clearAllTransactions p s) [] 0).2.1)
            (rows.filter (fun t => optTruthy t.parentTransactionId)) ids
            ((importParents p now
              (rows.filter (fun t => !optTruthy t.parentTransactionId))
              (clearAllTransactions p s) [] 0).1)
            ((importParents p now
              (rows.filter (fun t => !optTruthy t.parentTransactionId))
              (clearAllTransactions p s) [] 0).2.2)).2),
       (importChildren p now
            ((importParents p now
              (rows.filter (fun t => !optTruthy t.parentTransactionId))
              (clearAllTransactions p s) [] 0).2.1)
            (rows.filter (fun t => optTruthy t.parentTransactionId)) ids
            ((importParents p now
              (rows.filter (fun t => !optTruthy t.parentTransactionId))
              (clearAllTransactions p s) [] 0).1)
            ((importParents p now
              (rows.filter (fun t => !optTruthy t.parentTransactionId))
              (clearAllTransactions p s) [] 0).2.2)).1) := by
    simp only [restoreRoute]
    rw [if_neg hlen0]
  rw [hred]
  constructor
  · show RestoreOutcome.ok _ = RestoreOutcome.ok _
    rw [hc2, hp2]
    simp only [validParents, validChildren]
    congr 1
    omega
  · show _ = _
    rw [hc1, hp1, List.append_assoc]
    simp only [validParents, validChildren]
    exact (List.append_assoc _ _ _).symm

/-- A valid snapshot parent row used to witness the amended C6. -/
def c6Parent : RawRow :=
  { c6BadParent with id := "pa", description := "Pai" }

/-- A valid snapshot child row referencing `c6Parent`. -/
def c6Child : RawRow :=
  { c6BadParent with
    id := "old-child"
    description := "Filho"
    installments := some 2
    currentInstallment := some 2
    parentTransactionId := some "pa" }

/-- A snapshot row that fails validation (non-positive amount). -/
def c6Invalid : RawRow :=
  { c6BadParent with id := "bad", description := "Invalida", amount := 0 }

/-- Witness for the amended C6 at a concrete three-row snapshot: the valid
parent and the valid child are inserted (count 2), the invalid row is
skipped, and the child keeps its original parent reference. -/
theorem restoreRoute_amended_witness :
    (restoreRoute (some [c6Parent, c6Child, c6Invalid]) Profile.edson nowJan15
      ["nc1"] []).1 =
      RestoreOutcome.ok ((validParents [c6Parent, c6Child, c6Invalid]).length +
        (validChildren [c6Parent, c6Child, c6Invalid]).length) ∧
    (restoreRoute (some [c6Parent, c6Child, c6Invalid]) Profile.edson nowJan15
      ["nc1"] []).2 =
      clearAllTransactions Profile.edson [] ++
        (validParents [c6Parent, c6Child, c6Invalid]).map
          (claimParentRecord Profile.edson nowJan15) ++
        claimChildren Profile.edson nowJan15
          (validChildren [c6Parent, c6Child, c6Invalid]) ["nc1"] := by
  have h := restoreRoute_amended [c6Parent, c6Child, c6Invalid] Profile.edson
    nowJan15 ["nc1"] [] (by decide) (by decide) (by decide) (by decide)
    (by decide) (by decide)
  exact h

/-- The wire string of a transaction type. -/
def TxType.str : TxType → String
| TxType.income => "income"
| TxType.expense => "expense"

/-- The wire string of a payment method. -/
def PaymentMethod.str : PaymentMethod → String
| PaymentMethod.credit_card => "credit_card"
| PaymentMethod.debit_card => "debit_card"
| PaymentMethod.pix => "pix"
| PaymentMethod.cash => "cash"

/-- The wire string of a card operator. -/
def CardOperator.str : CardOperator → String
| CardOperator.santander => "santander"
| CardOperator.c6 => "c6"
| CardOperator.porto => "porto"
| CardOperator.mercado_pago => "mercado_pago"
| CardOperator.nubank => "nubank"
| CardOperator.itau => "itau"
| CardOperator.bradesco => "bradesco"
| CardOperator.caixa => "caixa"
| CardOperator.banco_do_brasil => "banco_do_brasil"
| CardOperator.inter => "inter"
| CardOperator.next => "next"
| CardOperator.picpay => "picpay"
| CardOperator.other => "other"

/-- The wire string of a category. -/
def Category.str : Category → String
| Category.salary => "salary"
| Category.freelance => "freelance"
| Category.investments => "investments"
| Category.rent => "rent"
| Category.other_income => "other_income"
| Category.food => "food"
| Category.transport => "transport"
| Category.health => "health"
| Category.education => "education"
| Category.entertainment => "entertainment"
| Category.shopping => "shopping"
| Category.bills => "bills"
| Category.housing => "housing"
| Category.reimbursement => "reimbursement"
| Category.other_expense => "other_expense"

/-- Two-digit zero padding, as in ISO date components. -/
def pad2 (n : Nat) : String :=
  if n < 10 then "0" ++ toString n else toString n

/-- Four-digit zero padding for the ISO year. -/
def pad4 (y : Int) : String :=
  if y < 10 then "000" ++ toString y
  else if y < 100 then "00" ++ toString y
  else if y < 1000 then "0" ++ toString y
  else toString y

/-- `x.toFixed(2)` for a non-negative amount: round to an integer number of
cents, then print with two decimal places. -/
def toFixed2 (q : ℚ) : String :=
  let n := jsRound (q * 100)
  toString (n / 100) ++ "." ++ pad2 (n % 100).toNat

/-- `date.toISOString().split("T")[0]`: the ISO `YYYY-MM-DD` day string. -/
def isoDay (d : JSDate) : String :=
  pad4 d.year ++ "-" ++ pad2 (d.month.val + 1) ++ "-" ++ pad2 d.day

/-- `formatDateKey` (import-export.tsx): the calendar-day string of a date.
Dates in this model are always valid, so the `""`-on-unparseable branch of
the source never fires. -/
def formatDateKey (d : JSDate) : String := isoDay d

/-- `getTransactionKey` (import-export.tsx): the fixed-order `"|"`-join of
the semantic fields, with JS `|| 1` defaults on the installment fields and
`|| ""` defaults on card operator and date key. -/
def getTransactionKey (ty : TxType) (amount : ℚ) (description : String)
    (category : Category) (pm : PaymentMethod) (co : Option CardOperator)
    (installments currentInstallment : Option Nat) (dateKey : String) :
    String :=
  String.intercalate "|"
    [ty.str, toFixed2 amount, description.toLower.trim, category.str, pm.str,
     (co.map CardOperator.str).getD "", toString (jsOrOne installments),
     toString (jsOrOne currentInstallment), dateKey]

/-- A parsed spreadsheet row of the import preview (`ImportItem`). -/
structure ImportItem where
  type : TxType
  amount : ℚ
  description : String
  category : Category
  paymentMethod : PaymentMethod
  cardOperator : Option CardOperator
  installments : Nat
  currentInstallment : Nat
  dateKey : String
deriving DecidableEq

/-- The fingerprint of an import row (`getTransactionKey(item)`). -/
def itemKey (it : ImportItem) : String :=
  getTransactionKey it.type it.amount it.description it.category
    it.paymentMethod it.cardOperator (some it.installments)
    (some it.currentInstallment) it.dateKey

/-- The fingerprint the import code computes for a stored record: the same
fields, with `|| 1` defaults applied at the call site as well, and the date
key taken from `createdAt`. -/
def txKey (t : Transaction) : String :=
  getTransactionKey t.type t.amount t.description t.category t.paymentMethod
    t.cardOperator (some (jsOrOne t.installments))
    (some (jsOrOne t.currentInstallment)) (formatDateKey t.createdAt)

/-- `isDuplicateTransaction` (import-export.tsx): some stored record has the
candidate's fingerprint. -/
def isDuplicateTransaction (it : ImportItem) (existing : List Transaction) :
    Bool :=
  existing.any (fun t => txKey t == itemKey it)

/-- The dedup loop of `handleFileSelect` (import-export.tsx): walk the parsed
rows, marking a row duplicate when its key was already accepted in this file
(`seenInFile`) or matches a stored record; only accepted rows enter
`seenInFile`. -/
def markDuplicates (existing : List Transaction) :
    List ImportItem → List String → List (ImportItem × Bool)
| [], _ => []
| item :: rest, seen =>
  let key := itemKey item
  cond (decide (key ∈ seen))
    ((item, true) :: markDuplicates existing rest seen)
    (cond (isDuplicateTransaction item existing)
      ((item, true) :: markDuplicates existing rest seen)
      ((item, false) :: markDuplicates existing rest (key :: seen)))

/-- The whole batch dedup pass, starting from an empty `seenInFile` set. -/
def handleFileRows (existing : List Transaction) (rows : List ImportItem) :
    List (ImportItem × Bool) :=
  markDuplicates existing rows []

lemma isDup_congr (it it' : ImportItem) (h : itemKey it = itemKey it')
    (e : List Transaction) :
    isDuplicateTransaction it e = isDuplicateTransaction it' e := by
  simp only [isDuplicateTransaction, h]

lemma markDuplicates_get?_dup (e : List Transaction) :
    ∀ (rows : List ImportItem) (seen : List String) (j : Nat) (it : ImportItem),
    rows[j]? = some it →
    (itemKey it ∈ seen ∨
     (∃ i it', i < j ∧ rows[i]? = some it' ∧ itemKey it' = itemKey it) ∨
     isDuplicateTransaction it e = true) →
    (markDuplicates e rows seen)[j]? = some (it, true) := by
  intro rows
  induction rows with
  | nil => intro seen j it hj; simp at hj
  | cons item rest ih =>
    intro seen j it hj hdup
    cases j with
    | zero =>
      simp only [List.getElem?_cons_zero, Option.some.injEq] at hj
      subst hj
      rcases hdup with hmem | hex | hdupe
      · have hc : decide (itemKey item ∈ seen) = true := by simpa using hmem
        simp [markDuplicates, hc]
      · obtain ⟨i, _, hi, _, _⟩ := hex
        exact absurd hi (Nat.not_lt_zero i)
      · cases hc : decide (itemKey item ∈ seen) with
        | true => simp [markDuplicates, hc]
        | false => simp [markDuplicates, hc, hdupe]
    | succ j' =>
      simp only [List.getElem?_cons_succ] at hj
      have hnext : ∀ seen', (itemKey it ∈ seen' ∨
          (∃ i it', i < j' ∧ rest[i]? = some it' ∧ itemKey it' = itemKey it) ∨
          isDuplicateTransaction it e = true) →
          (markDuplicates e rest seen')[j']? = some (it, true) :=
        fun seen' h => ih seen' j' it hj h
      cases hc : decide (itemKey item ∈ seen) with
      | true =>
        simp only [markDuplicates, hc, Bool.cond_true, List.getElem?_cons_succ]
        apply hnext
        rcases hdup with hmem | hex | hdupe
        · exact Or.inl hmem
        · obtain ⟨i, it', hi, hget, hkey⟩ := hex
          cases i with
          | zero =>
            simp only [List.getElem?_cons_zero, Option.some.injEq] at hget
            subst hget
            exact Or.inl (hkey ▸ (by simpa using hc))
          | succ i' =>
            simp only [List.getElem?_cons_succ] at hget
            exact Or.inr (Or.inl ⟨i', it', by omega, hget, hkey⟩)
        · exact Or.inr (Or.inr hdupe)
      | false =>
        cases hd : isDuplicateTransaction item e with
        | true =>
          simp only [markDuplicates, hc, hd, Bool.cond_true, Bool.cond_false,
            List.getElem?_cons_succ]
          apply hnext
          rcases hdup with hmem | hex | hdupe
          · exact Or.inl hmem
          · obtain ⟨i, it', hi, hget, hkey⟩ := hex
            cases i with
            | zero =>
              simp only [List.getElem?_cons_zero, Option.some.injEq] at hget
              subst hget
              exact Or.inr (Or.inr ((isDup_congr item it hkey e) ▸ hd))
            | succ i' =>
              simp only [List.getElem?_cons_succ] at hget
              exact Or.inr (Or.inl ⟨i', it', by omega, hget, hkey⟩)
          · exact Or.inr (Or.inr hdupe)
        | false =>
          simp only [markDuplicates, hc, hd, Bool.cond_false,
            List.getElem?_cons_succ]
          apply hnext
          rcases hdup with hmem | hex | hdupe
          · exact Or.inl (List.mem_cons_of_mem _ hmem)
          · obtain ⟨i, it', hi, hget, hkey⟩ := hex
            cases i with
            | zero =>
              simp only [List.getElem?_cons_zero, Option.some.injEq] at hget
              subst hget
              refine Or.inl ?_
              rw [← hkey]
              exact List.mem_cons_self _ _
            | succ i' =>
              simp only [List.getElem?_cons_succ] at hget
              exact Or.inr (Or.inl ⟨i', it', by omega, hget, hkey⟩)
          · exact Or.inr (Or.inr hdupe)

lemma markDuplicates_get?_new (e : List Transaction) :
    ∀ (rows : List ImportItem) (seen : List String) (j : Nat) (it : ImportItem),
    rows[j]? = some it →
    itemKey it ∉ seen →
    (∀ i it', i < j → rows[i]? = some it' → itemKey it' ≠ itemKey it) →
    isDuplicateTransaction it e = false →
    (markDuplicates e rows seen)[j]? = some (it, false) := by
  intro rows
  induction rows with
  | nil => intro seen j it hj; simp at hj
  | cons item rest ih =>
    intro seen j it hj hseen hfirst hdupe
    cases j with
    | zero =>
      simp only [List.getElem?_cons_zero, Option.some.injEq] at hj
      subst hj
      have hc : decide (itemKey item ∈ seen) = false := by simpa using hseen
      simp [markDuplicates, hc, hdupe]
    | succ j' =>
      simp only [List.getElem?_cons_succ] at hj
      have hfirst' : ∀ i it', i < j' → rest[i]? = some it' →
          itemKey it' ≠ itemKey it := by
        intro i it' hi hget
        exact hfirst (i + 1) it' (by omega) (by simpa using hget)
      cases hc : decide (itemKey item ∈ seen) with
      | true =>
        simp only [markDuplicates, hc, Bool.cond_true, List.getElem?_cons_succ]
        exact ih seen j' it hj hseen hfirst' hdupe
      | false =>
        cases hd : isDuplicateTransaction item e with
        | true =>
          simp only [markDuplicates, hc, hd, Bool.cond_true, Bool.cond_false,
            List.getElem?_cons_succ]
          exact ih seen j' it hj hseen hfirst' hdupe
        | false =>
          simp only [markDuplicates, hc, hd, Bool.cond_false,
            List.getElem?_cons_succ]
          apply ih (itemKey item :: seen) j' it hj _ hfirst' hdupe
          intro hmem
          rcases List.mem_cons.mp hmem with heq | hmem'
          · exact hfirst 0 item (by omega) (by simp) heq.symm
          · exact hseen hmem'

/-- C8: during a batch import, when two rows of the batch have identical
fingerprints, the later row is marked duplicate even when neither fingerprint
matches any pre-existing stored record, and the first occurrence — having no
earlier equal-fingerprint row and no stored match — is accepted. -/
theorem importBatch_dedup (existing : List Transaction)
    (rows : List ImportItem) (i j : Nat) (iti itj : ImportItem)
    (hij : i < j)
    (hi : rows[i]? = some iti) (hj : rows[j]? = some itj)
    (hkeys : itemKey iti = itemKey itj)
    (hno_i : isDuplicateTransaction iti existing = false)
    (hfirst : ∀ k itk, k < i → rows[k]? = some itk →
      itemKey itk ≠ itemKey iti) :
    (handleFileRows existing rows)[i]? = some (iti, false) ∧
    (handleFileRows existing rows)[j]? = some (itj, true) := by
  constructor
  · exact markDuplicates_get?_new existing rows [] i iti hi (by simp)
      hfirst hno_i
  · exact markDuplicates_get?_dup existing rows [] j itj hj
      (Or.inr (Or.inl ⟨i, iti, hij, hi, hkeys⟩))

/-- A concrete import row, appearing twice in the C8 witness batch. -/
def c8Item : ImportItem :=
  { type := TxType.expense
    amount := 25
    description := "Mercado"
    category := Category.food
    paymentMethod := PaymentMethod.pix
    cardOperator := none
    installments := 1
    currentInstallment := 1
    dateKey := "2024-01-15" }

/-- Witness for C8: a batch of two identical rows against an empty store
accepts the first and flags the second as duplicate. -/
theorem importBatch_dedup_witness :
    (handleFileRows [] [c8Item, c8Item])[0]? = some (c8Item, false) ∧
    (handleFileRows [] [c8Item, c8Item])[1]? = some (c8Item, true) :=
  importBatch_dedup [] [c8Item, c8Item] 0 1 c8Item c8Item (by decide)
    rfl rfl rfl rfl
    (fun k itk hk _ => absurd hk (Nat.not_lt_zero k))

/-- Fingerprint as described by claim C9: the same fixed-order join of
semantic fields, but with the record's effective date (`dueDate` if present,
else `createdAt`) truncated to the calendar day. -/
def claimFingerprint (t : Transaction) : String :=
  String.intercalate "|"
    [t.type.str, toFixed2 t.amount, t.description.toLower.trim, t.category.str,
     t.paymentMethod.str, (t.cardOperator.map CardOperator.str).getD "",
     toString (t.installments.getD 1), toString (t.currentInstallment.getD 1),
     formatDateKey (effectiveDate t)]

/-- Fingerprint of the amended claim C9: identical to the claim's join except
that the date component is always the `createdAt` calendar day (the code
never consults `dueDate` here), with the JS falsy default on the installment
fields. -/
def amendedFingerprint (t : Transaction) : String :=
  String.intercalate "|"
    [t.type.str, toFixed2 t.amount, t.description.toLower.trim, t.category.str,
     t.paymentMethod.str, (t.cardOperator.map CardOperator.str).getD "",
     toString (jsOrOne t.installments), toString (jsOrOne t.currentInstallment),
     formatDateKey t.createdAt]

lemma append_left_cancel_str (s : String) {t u : String}
    (h : s ++ t = s ++ u) : t = u := by
  have hd := congrArg String.data h
  simp only [String.data_append] at hd
  exact String.ext (List.append_cancel_left hd)

lemma getTransactionKey_inj_dateKey (ty : TxType) (amount : ℚ)
    (description : String) (category : Category) (pm : PaymentMethod)
    (co : Option CardOperator) (inst cur : Option Nat) {d1 d2 : String}
    (h : d1 ≠ d2) :
    getTransactionKey ty amount description category pm co inst cur d1 ≠
    getTransactionKey ty amount description category pm co inst cur d2 := by
  intro hc
  apply h
  have hc' : ((ty.str ++ "|" ++ toFixed2 amount ++ "|" ++
      description.toLower.trim ++ "|" ++ category.str ++ "|" ++ pm.str ++
      "|" ++ (co.map CardOperator.str).getD "" ++ "|" ++
      toString (jsOrOne inst) ++ "|" ++ toString (jsOrOne cur)) ++ "|") ++ d1 =
      ((ty.str ++ "|" ++ toFixed2 amount ++ "|" ++
      description.toLower.trim ++ "|" ++ category.str ++ "|" ++ pm.str ++
      "|" ++ (co.map CardOperator.str).getD "" ++ "|" ++
      toString (jsOrOne inst) ++ "|" ++ toString (jsOrOne cur)) ++ "|") ++ d2 :=
    hc
  exact append_left_cancel_str _ hc'

/-- A stored record whose `dueDate` (2024-06-14) differs from its `createdAt`
(2024-01-15): the code keys it on the latter, the claim on the former. -/
def c9Record : Transaction :=
  { c5Record with
    id := "d1"
    dueDate := some { year := 2024, month := 5, day := 14 } }

/-- Counterexample to C9 as stated: the fingerprint the code computes for a
record with a due date uses the `createdAt` day, not the effective date, so
it differs from the claim's fingerprint on a record whose `dueDate` day
differs from its `createdAt` day. -/
theorem c9_counterexample : txKey c9Record ≠ claimFingerprint c9Record := by
  have hd : formatDateKey c9Record.createdAt ≠
      formatDateKey (effectiveDate c9Record) := by decide
  exact getTransactionKey_inj_dateKey c9Record.type c9Record.amount
    c9Record.description c9Record.category c9Record.paymentMethod
    c9Record.cardOperator (some (jsOrOne c9Record.installments))
    (some (jsOrOne c9Record.currentInstallment)) hd

lemma jsOrOne_idem (o : Option Nat) : jsOrOne (some (jsOrOne o)) = jsOrOne o := by
  cases o with
  | none => rfl
  | some n =>
    by_cases hn : n = 0
    · subst hn; rfl
    · simp [jsOrOne, hn]

/-- C9 amended: for every stored record, the code's fingerprint is the
fixed-order join of type, amount as a fixed 2-decimal string, lower-cased
trimmed description, category, payment method, card operator (empty if
absent), installments and currentInstallment (defaulting to 1 when absent or
0 — the JS falsy default) and the `createdAt` date truncated to the calendar
day (never `dueDate`); and a candidate is a duplicate of the stored set
exactly when some stored record's fingerprint equals the candidate's. -/
theorem getTransactionKey_amended :
    (∀ t : Transaction, txKey t = amendedFingerprint t) ∧
    (∀ (it : ImportItem) (existing : List Transaction),
      isDuplicateTransaction it existing = true ↔
        ∃ t ∈ existing, txKey t = itemKey it) := by
  constructor
  · intro t
    unfold txKey getTransactionKey amendedFingerprint
    rw [jsOrOne_idem, jsOrOne_idem]
  · intro it existing
    simp [isDuplicateTransaction, List.any_eq_true]

end GestaoFinanceira
